import Mathlib

/-!
Verification of the Antigravity Phone Connect terminal client (src/tui.js)
and of the remote-debugging bridge it talks to, against the repository's
design specification.

The client's pure logic (HTML-to-text rendering, render-change detection,
input validation, mode toggling, state refresh, WebSocket dispatch) is
embedded from src/tui.js.  JS `String.prototype.replace` with a global
regex is modelled by a small backtracking matcher over `List Char`; each
regex of the source is transcribed one-for-one as a list of `Item`s.

The server-side bridge (server.js) is not among the staged sources; the
components the claims need from it (Snapshot Engine reuse, Element
Resolver, Action Executor, Target Locator, Change Notifier events) are
modelled from the specification's words and are marked as such in their
doc comments.
-/

set_option maxHeartbeats 1000000

namespace AgPhone

/-- ASCII lower-casing, used for the /i flag of the source's regexes
(every case-insensitive literal in src/tui.js is plain ASCII). -/
def lcChar (c : Char) : Char :=
  if 'A' ≤ c ∧ c ≤ 'Z' then Char.ofNat (c.toNat + 32) else c

/-- JS whitespace: the `\s` class and the set `String.prototype.trim` removes. -/
def jsIsWS (c : Char) : Bool :=
  c == ' ' || c == '\t' || c == '\n' || c == '\x0b' || c == '\x0c' || c == '\r' ||
  c == '\u00A0' || c == '\u1680' ||
  (decide ('\u2000' ≤ c) && decide (c ≤ '\u200A')) ||
  c == '\u2028' || c == '\u2029' || c == '\u202F' || c == '\u205F' ||
  c == '\u3000' || c == '\uFEFF'

/-- JS `.` in a regex without the s flag: anything except a line terminator. -/
def dotCh (c : Char) : Bool :=
  !(c == '\n' || c == '\r' || c == '\u2028' || c == '\u2029')

/-- JS `[\s\S]`: any character. -/
def anyCh (_ : Char) : Bool := true

/-- JS `[^>]`. -/
def notGT (c : Char) : Bool := c != '>'

/-- JS `[^"]`. -/
def notQuote (c : Char) : Bool := c != '\"'

/-- One element of a transcribed regex: a (possibly case-insensitive)
literal, a greedy or lazy star over a character class, a greedy plus, or an
optional single character. -/
inductive RKind where
  | lit : List Char → Bool → RKind
  | starG : (Char → Bool) → RKind
  | starL : (Char → Bool) → RKind
  | plusG : (Char → Bool) → RKind
  | optCh : Char → RKind

/-- A regex element together with its capture-group number, if the source
regex parenthesises it. -/
structure Item where
  kind : RKind
  cap : Option Nat := none

/-- Captured groups: group number paired with the captured source slice. -/
abbrev Caps := List (Nat × List Char)

/-- Does the literal `pat` start the text (case-insensitively when `ci`)? -/
def litAt (ci : Bool) : List Char → List Char → Bool
  | [], _ => true
  | _ :: _, [] => false
  | p :: ps, c :: cs =>
    (if ci then lcChar p == lcChar c else p == c) && litAt ci ps cs

def addCap (i : Option Nat) (s : List Char) (caps : Caps) : Caps :=
  match i with
  | some n => (n, s) :: caps
  | none => caps

def capGet (caps : Caps) (i : Nat) : List Char :=
  match caps with
  | [] => []
  | (j, s) :: rest => if j == i then s else capGet rest i

/-- Try `f` at `k`, `k-1`, …, `lo` and return the first success: the
backtracking order of a greedy star. -/
def firstDesc (f : Nat → Option α) (lo : Nat) : Nat → Option α
  | 0 => if lo == 0 then f 0 else none
  | k + 1 =>
    if k + 1 < lo then none
    else
      match f (k + 1) with
      | some r => some r
      | none => firstDesc f lo k

/-- Try `f` at `k`, `k+1`, …, `k+rem` and return the first success: the
order of a lazy star. -/
def firstAscAux (f : Nat → Option α) : Nat → Nat → Option α
  | k, 0 => f k
  | k, rem + 1 =>
    match f k with
    | some r => some r
    | none => firstAscAux f (k + 1) rem

/-- Match a transcribed regex (sequence of items) at the head of `s`,
returning the number of characters consumed and the captures.  `fuel`
bounds the recursion depth; `items.length` always suffices since each step
consumes one item. -/
def matchSeq : Nat → List Item → List Char → Option (Nat × Caps)
  | _, [], _ => some (0, [])
  | 0, _ :: _, _ => none
  | fuel + 1, it :: rest, s =>
    let cont : Nat → Option (Nat × Caps) := fun k =>
      (matchSeq fuel rest (s.drop k)).map fun r =>
        (k + r.1, addCap it.cap (s.take k) r.2)
    match it.kind with
    | .lit l ci => if litAt ci l s then cont l.length else none
    | .starG cls => firstDesc cont 0 (s.takeWhile cls).length
    | .starL cls => firstAscAux cont 0 (s.takeWhile cls).length
    | .plusG cls =>
      let m := (s.takeWhile cls).length
      if m == 0 then none else firstDesc cont 1 m
    | .optCh c =>
      match s with
      | c' :: _ =>
        if c' == c then
          match cont 1 with
          | some r => some r
          | none => cont 0
        else cont 0
      | [] => cont 0

/-- One global-replace pass (JS `text.replace(/re/g, build)`): scan left to
right, replace each match, continue after it.  `fuel` bounds the scan; the
input length suffices since every transcribed pattern starts with a
non-empty literal and so consumes at least one character per match. -/
def replaceAllAux (items : List Item) (build : Caps → List Char) :
    Nat → List Char → List Char
  | _, [] => []
  | 0, l => l
  | fuel + 1, c :: cs =>
    match matchSeq items.length items (c :: cs) with
    | some (n, caps) =>
      if n == 0 then c :: replaceAllAux items build fuel cs
      else build caps ++ replaceAllAux items build fuel ((c :: cs).drop n)
    | none => c :: replaceAllAux items build fuel cs

def applyPat (items : List Item) (build : Caps → List Char) (l : List Char) :
    List Char :=
  replaceAllAux items build l.length l

def ciLit (s : String) : Item := { kind := .lit s.data true }
def csLit (s : String) : Item := { kind := .lit s.data false }
def gstar (cls : Char → Bool) : Item := { kind := .starG cls }
def gstarCap (i : Nat) (cls : Char → Bool) : Item :=
  { kind := .starG cls, cap := some i }
def lstarCap (i : Nat) (cls : Char → Bool) : Item :=
  { kind := .starL cls, cap := some i }
def gplus (cls : Char → Bool) : Item := { kind := .plusG cls }
def gplusCap (i : Nat) (cls : Char → Bool) : Item :=
  { kind := .plusG cls, cap := some i }
def optChar (c : Char) : Item := { kind := .optCh c }

/-- `n.toString` digits back to a number, as JS `parseInt` on a digit string. -/
def digitsToNat (l : List Char) : Nat :=
  l.foldl (fun a c => a * 10 + (c.toNat - 48)) 0

/-- decodeEntities of src/tui.js lines 159-168: six literal entity
replacements, in source order, then numeric `&#nnn;` entities through
`String.fromCharCode` (whose operand is reduced mod 2^16; code points that
are not Lean scalar values land on the null character). -/
def decodeEntities (l : List Char) : List Char :=
  let e1 := applyPat [csLit "&amp;"] (fun _ => "&".data) l
  let e2 := applyPat [csLit "&lt;"] (fun _ => "<".data) e1
  let e3 := applyPat [csLit "&gt;"] (fun _ => ">".data) e2
  let e4 := applyPat [csLit "&quot;"] (fun _ => "\"".data) e3
  let e5 := applyPat [csLit "&#39;"] (fun _ => ['\'']) e4
  let e6 := applyPat [csLit "&nbsp;"] (fun _ => " ".data) e5
  applyPat [csLit "&#", gplusCap 1 Char.isDigit, csLit ";"]
    (fun caps => [Char.ofNat (digitsToNat (capGet caps 1) % 65536)]) e6

/-- `text.replace(/<[^>]+>/g, '')`: strip remaining tags. -/
def stripTags (l : List Char) : List Char :=
  applyPat [csLit "<", gplus notGT, csLit ">"] (fun _ => []) l

/-- JS `String.prototype.trim` on the character list. -/
def trimChars (l : List Char) : List Char :=
  ((l.dropWhile jsIsWS).reverse.dropWhile jsIsWS).reverse

/-- JS `s.split('\n')` (empty fields preserved). -/
def splitNL : List Char → List (List Char)
  | [] => [[]]
  | c :: cs =>
    if c == '\n' then [] :: splitNL cs
    else
      match splitNL cs with
      | [] => [[c]]
      | g :: gs => (c :: g) :: gs

/-- JS `parts.join('\n')`. -/
def joinNL : List (List Char) → List Char
  | [] => []
  | [g] => g
  | g :: gs => g ++ '\n' :: joinNL gs

/-- `/<pre[^>]*><code[^>]*>([\s\S]*?)<\/code><\/pre>/gi` -/
def patPreCode : List Item :=
  [ciLit "<pre", gstar notGT, ciLit ">", ciLit "<code", gstar notGT, ciLit ">",
   lstarCap 1 anyCh, ciLit "</code>", ciLit "</pre>"]

/-- `/<pre[^>]*>([\s\S]*?)<\/pre>/gi` -/
def patPre : List Item :=
  [ciLit "<pre", gstar notGT, ciLit ">", lstarCap 1 anyCh, ciLit "</pre>"]

/-- The replacement both pre rules share: strip tags inside the block,
decode entities, trim, and fence with ``` lines. -/
def buildCodeBlock (caps : Caps) : List Char :=
  "\n```\n".data ++ trimChars (decodeEntities (stripTags (capGet caps 1))) ++
    "\n```\n".data

/-- `/<code[^>]*>(.*?)<\/code>/gi` -/
def patInlineCode : List Item :=
  [ciLit "<code", gstar notGT, ciLit ">", lstarCap 1 dotCh, ciLit "</code>"]

def buildInlineCode (caps : Caps) : List Char :=
  "`".data ++ decodeEntities (stripTags (capGet caps 1)) ++ "`".data

/-- `/<tag[^>]*>(.*?)<\/tag>/gi` for the header, list, bold and italic rules. -/
def patTagPair (tag : String) : List Item :=
  [ciLit ("<" ++ tag), gstar notGT, ciLit ">", lstarCap 1 dotCh,
   ciLit ("</" ++ tag ++ ">")]

/-- A `'pre$1post'` replacement string. -/
def buildWrap (pre post : String) (caps : Caps) : List Char :=
  pre.data ++ capGet caps 1 ++ post.data

/-- `/<br\s*\/?>/gi` -/
def patBr : List Item := [ciLit "<br", gstar jsIsWS, optChar '/', ciLit ">"]

/-- `/<blockquote[^>]*>([\s\S]*?)<\/blockquote>/gi` -/
def patBlockquote : List Item :=
  [ciLit "<blockquote", gstar notGT, ciLit ">", lstarCap 1 anyCh,
   ciLit "</blockquote>"]

/-- Strip tags inside the quote, prefix each trimmed line with `  > `. -/
def buildBlockquote (caps : Caps) : List Char :=
  joinNL ((splitNL (stripTags (capGet caps 1))).map
    (fun l => "  > ".data ++ trimChars l)) ++ "\n".data

/-- `/<a[^>]*href="([^"]*)"[^>]*>(.*?)<\/a>/gi` -/
def patLink : List Item :=
  [ciLit "<a", gstar notGT, ciLit "href=\"", gstarCap 1 notQuote, ciLit "\"",
   gstar notGT, ciLit ">", lstarCap 2 dotCh, ciLit "</a>"]

/-- `'$2 ($1)'` -/
def buildLink (caps : Caps) : List Char :=
  capGet caps 2 ++ " (".data ++ capGet caps 1 ++ ")".data

/-- Does the list start with two newline characters? -/
def nlnl : List Char → Bool
  | a :: b :: _ => decide (a = '\n') && decide (b = '\n')
  | _ => false

/-- `text.replace(/\n{3,}/g, '\n\n')`: every maximal run of three or more
newlines becomes exactly two.  The Boolean is true while the tail of a run
already replaced is being swallowed (the greedy `{3,}`). -/
def collapseNLAux : Bool → List Char → List Char
  | _, [] => []
  | true, c :: cs =>
    if c = '\n' then collapseNLAux true cs else c :: collapseNLAux false cs
  | false, c :: d :: e :: rest =>
    if c = '\n' ∧ d = '\n' ∧ e = '\n' then '\n' :: '\n' :: collapseNLAux true rest
    else c :: collapseNLAux false (d :: e :: rest)
  | false, c :: cs => c :: collapseNLAux false cs

/-- The replacement pipeline of htmlToText (src/tui.js lines 103-150), in
source order, up to and including entity decoding. -/
def htmlSteps (l : List Char) : List Char :=
  let s1 := applyPat patPreCode buildCodeBlock l
  let s2 := applyPat patPre buildCodeBlock s1
  let s3 := applyPat patInlineCode buildInlineCode s2
  let s4 := applyPat (patTagPair "h1") (buildWrap "\n# " "\n") s3
  let s5 := applyPat (patTagPair "h2") (buildWrap "\n## " "\n") s4
  let s6 := applyPat (patTagPair "h3") (buildWrap "\n### " "\n") s5
  let s7 := applyPat (patTagPair "h4") (buildWrap "\n#### " "\n") s6
  let s8 := applyPat (patTagPair "li") (buildWrap "  • " "\n") s7
  let s9 := applyPat patBr (fun _ => "\n".data) s8
  let s10 := applyPat [ciLit "</p>"] (fun _ => "\n".data) s9
  let s11 := applyPat [ciLit "</div>"] (fun _ => "\n".data) s10
  let s12 := applyPat [ciLit "</tr>"] (fun _ => "\n".data) s11
  let s13 := applyPat patBlockquote buildBlockquote s12
  let s14 := applyPat (patTagPair "strong") (buildWrap "*" "*") s13
  let s15 := applyPat (patTagPair "b") (buildWrap "*" "*") s14
  let s16 := applyPat (patTagPair "em") (buildWrap "_" "_") s15
  let s17 := applyPat patLink buildLink s16
  decodeEntities (stripTags s17)

/-- htmlToText of src/tui.js lines 100-157: falsy input gives the empty
string; otherwise the replacement pipeline, then newline-run collapsing,
then trim. -/
def htmlToText (html : String) : String :=
  if html = "" then ""
  else ⟨trimChars (collapseNLAux false (htmlSteps html.data))⟩

/-- htmlToText when the argument may be absent: JS `undefined` is falsy,
exactly like the empty string. -/
def htmlToTextOpt : Option String → String
  | none => ""
  | some s => htmlToText s

/-- Match of `/^(You|Human|User)\s*:/i` for one alternative `word`: the
word case-insensitively at the start, optional whitespace, then a colon. -/
def userTagAt (word : String) (l : List Char) : Bool :=
  litAt true word.data l &&
    (((l.drop word.length).dropWhile jsIsWS).head? == some ':')

/-- `line.match(/^(You|Human|User)\s*:/i)` of src/tui.js line 314. -/
def isUserLine (l : List Char) : Bool :=
  userTagAt "You" l || userTagAt "Human" l || userTagAt "User" l

/-- One line of the renderChat colouring map (src/tui.js lines 312-330). -/
def colorLine (l : List Char) : List Char :=
  if isUserLine l then "{cyan-fg}{bold}".data ++ l ++ "{/}".data
  else if "```".data.isPrefixOf l then "{yellow-fg}".data ++ l ++ "{/}".data
  else if "#".data.isPrefixOf l then "{green-fg}{bold}".data ++ l ++ "{/}".data
  else if "•".data.isPrefixOf (l.dropWhile jsIsWS) then
    "{white-fg}".data ++ l ++ "{/}".data
  else l

/-- The colouring pass of renderChat: split into lines, colour each,
rejoin. -/
def colorize (text : String) : String :=
  ⟨joinNL ((splitNL text.data).map colorLine)⟩

/-- The client state renderChat touches: the change-detection field
`lastChatText` (src/tui.js line 284) and the chat box content. -/
structure TuiView where
  lastChatText : String
  chatContent : String
deriving DecidableEq, Repr

/-- renderChat of src/tui.js lines 305-337: convert the snapshot HTML to
text; if it equals the last rendered text, return with nothing changed;
otherwise store it and set the coloured content. -/
def renderChat (html : String) (st : TuiView) : TuiView :=
  let text := htmlToText html
  if text = st.lastChatText then st
  else { lastChatText := text, chatContent := colorize text }

/-- JS `s.trim()` on a `String`. -/
def jsTrim (s : String) : String := ⟨trimChars s.data⟩

/-- An HTTP POST the client issues. -/
structure PostReq where
  path : String
  message : String
deriving DecidableEq, Repr

/-- The protocol call sendMessage (src/tui.js lines 379-394) issues: none
when the trimmed text is empty (the guard `if (!text.trim()) return;`
returns before any request), otherwise the POST to /send. -/
def sendMessageCall (text : String) : Option PostReq :=
  if jsTrim text = "" then none
  else some { path := "/send", message := text }

/-- The submit handler (src/tui.js lines 590-597): sendMessage is invoked,
with the trimmed value, only when that trimmed value is truthy. -/
def submitCallsSend (value : String) : Option String :=
  if jsTrim value = "" then none else some (jsTrim value)

/-- switchMode (src/tui.js lines 421-436) computes the mode it posts from
the currently displayed mode: `currentMode === 'Fast' ? 'Planning' :
'Fast'`. -/
def switchModeTarget (currentMode : String) : String :=
  if currentMode = "Fast" then "Planning" else "Fast"

/-- The POST switchMode issues. -/
def switchModeCall (currentMode : String) : PostReq :=
  { path := "/set-mode", message := switchModeTarget currentMode }

/-- The mode/model fields of the client's status state (src/tui.js lines
280-281). -/
structure ModeModel where
  currentMode : String
  currentModel : String
deriving DecidableEq, Repr

/-- The JSON body of a successful GET /app-state as the client reads it:
each field may be absent. -/
structure AppStateResp where
  mode : Option String
  model : Option String
deriving DecidableEq, Repr

/-- One guarded assignment of refreshState: `if (state.x && state.x !==
'Unknown') currentX = state.x;` — truthy means present and non-empty. -/
def applyStateField (fetched : Option String) (old : String) : String :=
  match fetched with
  | some s => if s ≠ "" ∧ s ≠ "Unknown" then s else old
  | none => old

/-- refreshState (src/tui.js lines 358-365); `none` models a failed fetch,
which the catch block ignores. -/
def refreshState (resp : Option AppStateResp) (st : ModeModel) : ModeModel :=
  match resp with
  | none => st
  | some r =>
    { currentMode := applyStateField r.mode st.currentMode,
      currentModel := applyStateField r.model st.currentModel }

/-- An incoming WebSocket frame as the client's message handler sees it:
either text that JSON.parse throws on (the catch block ignores it), or a
parsed object with its `type` field and whatever other content it may
carry. -/
inductive WsFrame where
  | malformed (raw : String)
  | parsed (mtype : Option String) (payload : Option String)
deriving DecidableEq, Repr

/-- The GET requests the handler ws.on('message') (src/tui.js lines
541-548) issues for one frame: /snapshot exactly when the parsed type
equals "snapshot_update"; no other field of the frame is read. -/
def handleWsFrame : WsFrame → List String
  | .malformed _ => []
  | .parsed t _ => if t = some "snapshot_update" then ["/snapshot"] else []

/-- Modelled from the spec: a Snapshot of the Snapshot Engine (server.js is
not among the staged sources) — captured content, content hash, capture
timestamp. -/
structure Snapshot where
  content : String
  hash : Nat
  time : Nat
deriving DecidableEq, Repr

/-- Modelled from the spec: one capture step of the Snapshot Engine — "if
the hash equals the previous snapshot's hash, the previous Snapshot object
is reused (no new allocation, no change event)".  The Boolean is the change
event. -/
def captureStep (hashFn : String → Nat) (prev : Option Snapshot)
    (serialized : String) (now : Nat) : Snapshot × Bool :=
  match prev with
  | some p =>
    if hashFn serialized = p.hash then (p, false)
    else ({ content := serialized, hash := hashFn serialized, time := now }, true)
  | none => ({ content := serialized, hash := hashFn serialized, time := now }, true)

/-- Modelled from the spec: an element of the observed page as the Element
Resolver's search routine sees it (server.js is not among the staged
sources). -/
structure Element where
  tag : String
  text : String
  attrs : List (String × String)
  width : Nat
  height : Nat
  hidden : Bool
deriving DecidableEq, Repr

/-- Case-insensitive substring test: the spec's "required-text match
(case-insensitive substring)". -/
def containsCI (needle hay : List Char) : Bool :=
  match hay with
  | [] => needle.isEmpty
  | _ :: t => litAt true needle hay || containsCI needle t

/-- Modelled from the spec: one heuristic signal of a RoleDescriptor — a
text fragment, a tag/role hint, an attribute pattern, or the
visibility/size threshold. -/
inductive SignalKind where
  | textFragment : String → SignalKind
  | tagHint : String → SignalKind
  | attrPattern : String → String → SignalKind
  | visibleEnough : SignalKind
deriving DecidableEq, Repr

def sigMatches : SignalKind → Element → Bool
  | .textFragment s, e => containsCI s.data e.text.data
  | .tagHint t, e => e.tag == t
  | .attrPattern k v, e =>
    e.attrs.any fun a => a.1 == k && containsCI v.data a.2.data
  | .visibleEnough, e =>
    !e.hidden && decide (0 < e.width) && decide (0 < e.height)

/-- Modelled from the spec: one weighted signal; a `forbidden` signal
disqualifies instead of scoring. -/
structure Signal where
  kind : SignalKind
  weight : Int
  forbidden : Bool
deriving DecidableEq, Repr

/-- Modelled from the spec: a RoleDescriptor — a semantic role name, its
ranked signal list, and the minimum-score threshold. -/
structure RoleDescriptor where
  role : String
  signals : List Signal
  minScore : Int
deriving DecidableEq, Repr

/-- The spec's "Score is a weighted sum": the weights of the matching
non-forbidden signals. -/
def score (d : RoleDescriptor) (e : Element) : Int :=
  (d.signals.filter fun s => !s.forbidden && sigMatches s.kind e).foldl
    (fun a s => a + s.weight) 0

/-- The spec's "any forbidden-signal match disqualifies the element
outright". -/
def disqualified (d : RoleDescriptor) (e : Element) : Bool :=
  d.signals.any fun s => s.forbidden && sigMatches s.kind e

def qualifies (d : RoleDescriptor) (e : Element) : Bool :=
  !disqualified d e && decide (d.minScore ≤ score d e)

/-- Fold step keeping the best candidate; only a strictly greater score
displaces the incumbent, so document order breaks ties. -/
def keepBest (d : RoleDescriptor) (best : Option Element) (e : Element) :
    Option Element :=
  match best with
  | none => some e
  | some b => if score d b < score d e then some e else some b

/-- Modelled from the spec: `resolve(role) → Candidate | NotFound` — the
highest-scoring non-disqualified element above the minimum-score threshold,
first match in document order on ties; `none` is NotFound. -/
def resolve (d : RoleDescriptor) (es : List Element) : Option Element :=
  (es.filter (qualifies d)).foldl (keepBest d) none

/-- Modelled from the spec's error taxonomy: the content-layer failures of
the send operation. -/
inductive ActionFailure where
  | emptyInput
  | notFound
deriving DecidableEq, Repr

inductive ActionResult where
  | ok
  | failed : ActionFailure → ActionResult
deriving DecidableEq, Repr

/-- Modelled from the spec: the protocol writes the Action Executor drives
a resolved candidate through ("set value / dispatch click"). -/
inductive ProtocolWrite where
  | setValue : String → ProtocolWrite
  | click : ProtocolWrite
deriving DecidableEq, Repr

/-- Modelled from the spec: the `send(text)` operation of the Action
Executor — `EmptyInput` for blank text without making any protocol call;
a resolution failure fails fast with `NotFound` without attempting any
protocol write; otherwise the input-simulation writes are issued. -/
def sendOp (d : RoleDescriptor) (es : List Element) (text : String) :
    ActionResult × List ProtocolWrite :=
  if jsTrim text = "" then (.failed .emptyInput, [])
  else
    match resolve d es with
    | none => (.failed .notFound, [])
    | some _ => (.ok, [.setValue text, .click])

/-- Modelled from the spec: a discovered Target — identifier, title,
type (server.js is not among the staged sources). -/
structure Target where
  id : String
  title : String
  ttype : String
deriving DecidableEq, Repr

/-- Modelled from the spec: "an expected title/type filter". -/
structure TargetFilter where
  titleFragment : String
  ttype : String
deriving DecidableEq, Repr

def matchesFilter (f : TargetFilter) (t : Target) : Bool :=
  t.ttype == f.ttype && containsCI f.titleFragment.data t.title.data

/-- Does the endpoint at port `p` answer with a well-formed target list
holding a matching target?  `env p = none` models an unreachable endpoint
or an ill-formed answer. -/
def answersMatching (env : Nat → Option (List Target)) (f : TargetFilter)
    (p : Nat) : Bool :=
  match env p with
  | none => false
  | some ts => ts.any (matchesFilter f)

/-- Modelled from the spec: `locate(candidatePorts) → Target | NotFound` —
probe the ordered candidate list; the first endpoint that answers with a
well-formed list containing a matching target is selected (first match in
probe order breaks ties); `none` is the NoTargetFound outcome. -/
def locate (env : Nat → Option (List Target)) (f : TargetFilter) :
    List Nat → Option (Nat × Target)
  | [] => none
  | p :: ps =>
    match env p with
    | some ts =>
      match ts.find? (matchesFilter f) with
      | some t => some (p, t)
      | none => locate env f ps
    | none => locate env f ps

inductive PushScope where
  | snapshot
  | state
deriving DecidableEq, Repr

/-- Modelled from the spec: the event shape the push channel delivers —
`{type: "changed", scope: "snapshot"|"state"}` and nothing else; in
particular the structure has no payload field at all. -/
structure PushEvent where
  type : String
  scope : PushScope
deriving DecidableEq, Repr

/-- Modelled from the spec: what the Change Notifier publishes for a
changed scope. -/
def publishedEvent (s : PushScope) : PushEvent :=
  { type := "changed", scope := s }

/-- How the client's WebSocket handler sees a push event: a parsed frame
carrying the event's type and no payload. -/
def frameOfEvent (e : PushEvent) : WsFrame :=
  .parsed (some e.type) none

/-- Does the list start with a newline? -/
def headIsNL : List Char → Bool
  | c :: _ => decide (c = '\n')
  | [] => false

/-- Does the list contain three consecutive newline characters? -/
def hasTripleNL : List Char → Bool
  | [] => false
  | c :: cs => (decide (c = '\n') && nlnl cs) || hasTripleNL cs

/-- The first character, if any, is not JS whitespace. -/
def headNotWS (l : List Char) : Bool :=
  match l.head? with
  | some c => !jsIsWS c
  | none => true

/-- The last character, if any, is not JS whitespace. -/
def lastNotWS (l : List Char) : Bool :=
  match l.getLast? with
  | some c => !jsIsWS c
  | none => true

/-- A send-button RoleDescriptor used in concrete instances. -/
def exSendDesc : RoleDescriptor :=
  { role := "send-button",
    signals :=
      [ { kind := .textFragment "send", weight := 10, forbidden := false },
        { kind := .tagHint "button", weight := 5, forbidden := false },
        { kind := .visibleEnough, weight := 3, forbidden := false },
        { kind := .textFragment "stop", weight := 0, forbidden := true } ],
    minScore := 8 }

/-- A clean send button: qualifies for `exSendDesc`. -/
def exSendButton : Element :=
  { tag := "button", text := "Send message", attrs := [],
    width := 40, height := 20, hidden := false }

/-- A button whose text hits the forbidden "stop" fragment: scores high but
is disqualified. -/
def exStopButton : Element :=
  { tag := "button", text := "Stop send", attrs := [],
    width := 50, height := 20, hidden := false }

/-- The target the concrete locator scenario should find. -/
def exTarget : Target :=
  { id := "T2", title := "Antigravity Agent Manager", ttype := "page" }

/-- A target that does not pass the title filter. -/
def exOther : Target :=
  { id := "T1", title := "DevTools", ttype := "page" }

def exFilter : TargetFilter :=
  { titleFragment := "antigravity", ttype := "page" }

/-- Probe environment of end-to-end scenario A: 9000 and 9003 unreachable,
9001 answers without a matching target, 9002 answers with one. -/
def exEnv : Nat → Option (List Target) := fun p =>
  if p = 9001 then some [exOther]
  else if p = 9002 then some [exOther, exTarget]
  else none

/-! ### Lemmas about trimming and newline runs -/

theorem head_dropWhile_false (p : Char → Bool) :
    ∀ (l : List Char) (c : Char), (l.dropWhile p).head? = some c → p c = false := by
  intro l
  induction l with
  | nil => intro c h; simp [List.dropWhile] at h
  | cons a t ih =>
    intro c h
    rw [List.dropWhile_cons] at h
    by_cases hp : p a
    · rw [if_pos hp] at h
      exact ih c h
    · rw [if_neg hp] at h
      simp only [List.head?_cons, Option.some.injEq] at h
      subst h
      exact Bool.eq_false_iff.mpr hp

theorem trimChars_infix (l : List Char) : ∃ u v, l = u ++ trimChars l ++ v := by
  refine ⟨l.takeWhile jsIsWS,
    ((l.dropWhile jsIsWS).reverse.takeWhile jsIsWS).reverse, ?_⟩
  conv_lhs => rw [← List.takeWhile_append_dropWhile jsIsWS l]
  rw [List.append_assoc]
  congr 1
  have h2 : trimChars l ++ ((l.dropWhile jsIsWS).reverse.takeWhile jsIsWS).reverse
      = ((l.dropWhile jsIsWS).reverse.takeWhile jsIsWS ++
          (l.dropWhile jsIsWS).reverse.dropWhile jsIsWS).reverse := by
    rw [List.reverse_append]
    rfl
  rw [h2, List.takeWhile_append_dropWhile, List.reverse_reverse]

theorem nlnl_true_iff (l : List Char) :
    nlnl l = true ↔ ∃ t, l = '\n' :: '\n' :: t := by
  cases l with
  | nil => simp [nlnl]
  | cons a m =>
    cases m with
    | nil => simp [nlnl]
    | cons b t =>
      simp only [nlnl, Bool.and_eq_true, decide_eq_true_eq, List.cons.injEq]
      constructor
      · rintro ⟨h1, h2⟩
        exact ⟨t, h1, h2, rfl⟩
      · rintro ⟨t', h1, h2, _⟩
        exact ⟨h1, h2⟩

theorem headIsNL_false_nlnl {l : List Char} (h : headIsNL l = false) :
    nlnl l = false := by
  cases l with
  | nil => rfl
  | cons a m =>
    simp only [headIsNL] at h
    cases m with
    | nil => rfl
    | cons b t => simp [nlnl, h]

theorem headIsNL_of_head? {x y : List Char} (h : x.head? = y.head?) :
    headIsNL x = headIsNL y := by
  cases x with
  | nil =>
    cases y with
    | nil => rfl
    | cons b m => simp at h
  | cons a n =>
    cases y with
    | nil => simp at h
    | cons b m =>
      simp only [List.head?_cons, Option.some.injEq] at h
      subst h
      rfl

theorem nlnl_cons (c : Char) (m : List Char) :
    nlnl (c :: m) = (decide (c = '\n') && headIsNL m) := by
  cases m with
  | nil => simp [nlnl, headIsNL]
  | cons b t => rfl

theorem hasTripleNL_append_nnn (u v : List Char) :
    hasTripleNL (u ++ '\n' :: '\n' :: '\n' :: v) = true := by
  induction u with
  | nil => simp [hasTripleNL, nlnl]
  | cons a t ih => rw [List.cons_append, hasTripleNL, ih, Bool.or_true]

theorem hasTripleNL_iff (l : List Char) :
    hasTripleNL l = true ↔ ∃ u v, l = u ++ '\n' :: '\n' :: '\n' :: v := by
  constructor
  · induction l with
    | nil => intro h; cases h
    | cons c cs ih =>
      intro h
      rw [hasTripleNL, Bool.or_eq_true] at h
      cases h with
      | inl h1 =>
        rw [Bool.and_eq_true] at h1
        obtain ⟨hc, hnl⟩ := h1
        obtain ⟨t, ht⟩ := (nlnl_true_iff cs).mp hnl
        refine ⟨[], t, ?_⟩
        rw [ht, of_decide_eq_true hc]
        rfl
      | inr h2 =>
        obtain ⟨u, v, huv⟩ := ih h2
        exact ⟨c :: u, v, by rw [huv]; rfl⟩
  · rintro ⟨u, v, rfl⟩
    exact hasTripleNL_append_nnn u v

theorem trim_no_triple {l : List Char} (h : hasTripleNL l = false) :
    hasTripleNL (trimChars l) = false := by
  by_contra hc
  have ht : hasTripleNL (trimChars l) = true := by
    cases e : hasTripleNL (trimChars l)
    · exact absurd e hc
    · rfl
  obtain ⟨u, v, huv⟩ := (hasTripleNL_iff _).mp ht
  obtain ⟨a, b, hab⟩ := trimChars_infix l
  rw [huv] at hab
  have h3 : hasTripleNL l = true := by
    rw [hab]
    simpa [List.append_assoc] using
      hasTripleNL_append_nnn (a ++ u) (v ++ b)
  rw [h3] at h
  cases h

theorem collapse_true_head (l : List Char) :
    headIsNL (collapseNLAux true l) = false := by
  induction l with
  | nil => rfl
  | cons c cs ih =>
    by_cases hc : c = '\n'
    · subst hc
      simpa [collapseNLAux] using ih
    · simp [collapseNLAux, hc, headIsNL]

theorem collapse_false_head (l : List Char) :
    (collapseNLAux false l).head? = l.head? := by
  cases l with
  | nil => rfl
  | cons c cs =>
    cases cs with
    | nil => rfl
    | cons d cs' =>
      cases cs' with
      | nil => rfl
      | cons e rest =>
        by_cases h : c = '\n' ∧ d = '\n' ∧ e = '\n'
        · obtain ⟨hc, hd, he⟩ := h
          subst hc; subst hd; subst he
          simp [collapseNLAux]
        · simp [collapseNLAux, h]

theorem collapse_false_nlnl (l : List Char) :
    nlnl (collapseNLAux false l) = nlnl l := by
  cases l with
  | nil => rfl
  | cons c cs =>
    cases cs with
    | nil => rfl
    | cons d cs' =>
      cases cs' with
      | nil => rfl
      | cons e rest =>
        by_cases h : c = '\n' ∧ d = '\n' ∧ e = '\n'
        · obtain ⟨hc, hd, he⟩ := h
          subst hc; subst hd; subst he
          simp [collapseNLAux, nlnl]
        · have hout : collapseNLAux false (c :: d :: e :: rest)
              = c :: collapseNLAux false (d :: e :: rest) := by
            simp [collapseNLAux, h]
          rw [hout, nlnl_cons, nlnl_cons]
          congr 1
          exact headIsNL_of_head? (collapse_false_head (d :: e :: rest))

theorem collapse_no_triple (b : Bool) (l : List Char) :
    hasTripleNL (collapseNLAux b l) = false := by
  induction b, l using collapseNLAux.induct with
  | case1 b => cases b <;> rfl
  | case2 cs ih => simpa [collapseNLAux] using ih
  | case3 c cs hc ih =>
    have hout : collapseNLAux true (c :: cs) = c :: collapseNLAux false cs := by
      simp [collapseNLAux, hc]
    rw [hout, hasTripleNL]
    simp [hc, ih]
  | case4 c d e rest h ih =>
    obtain ⟨hc, hd, he⟩ := h
    subst hc; subst hd; subst he
    have h1 : headIsNL (collapseNLAux true rest) = false := collapse_true_head rest
    have h2 : nlnl (collapseNLAux true rest) = false := headIsNL_false_nlnl h1
    have hout : collapseNLAux false ('\n' :: '\n' :: '\n' :: rest)
        = '\n' :: '\n' :: collapseNLAux true rest := by
      simp [collapseNLAux]
    rw [hout, hasTripleNL, hasTripleNL, nlnl_cons, h1, h2, ih]
    simp
  | case5 c d e rest h ih =>
    have hout : collapseNLAux false (c :: d :: e :: rest)
        = c :: collapseNLAux false (d :: e :: rest) := by
      simp [collapseNLAux, h]
    rw [hout, hasTripleNL, collapse_false_nlnl (d :: e :: rest), ih]
    by_cases hc : c = '\n' <;> by_cases hd : d = '\n' <;> by_cases he : e = '\n' <;>
      simp_all [nlnl]
  | case6 c cs hshort ih =>
    have hout : collapseNLAux false (c :: cs) = c :: collapseNLAux false cs := by
      cases cs with
      | nil => rfl
      | cons x m =>
        cases m with
        | nil => rfl
        | cons y t => exact (hshort x y t rfl).elim
    have hnl : nlnl cs = false := by
      cases cs with
      | nil => rfl
      | cons x m =>
        cases m with
        | nil => rfl
        | cons y t => exact (hshort x y t rfl).elim
    rw [hout, hasTripleNL, collapse_false_nlnl cs, hnl, ih]
    simp

theorem trim_headNotWS (l : List Char) : headNotWS (trimChars l) = true := by
  have hx : l.dropWhile jsIsWS =
      trimChars l ++ ((l.dropWhile jsIsWS).reverse.takeWhile jsIsWS).reverse := by
    have h2 : trimChars l ++ ((l.dropWhile jsIsWS).reverse.takeWhile jsIsWS).reverse
        = ((l.dropWhile jsIsWS).reverse.takeWhile jsIsWS ++
            (l.dropWhile jsIsWS).reverse.dropWhile jsIsWS).reverse := by
      rw [List.reverse_append]
      rfl
    rw [h2, List.takeWhile_append_dropWhile, List.reverse_reverse]
  cases e : (trimChars l).head? with
  | none => simp [headNotWS, e]
  | some c =>
    have hcl : (l.dropWhile jsIsWS).head? = some c := by
      rw [hx]
      cases e2 : trimChars l with
      | nil => rw [e2] at e; cases e
      | cons d m =>
        rw [e2] at e
        simp only [List.head?_cons, Option.some.injEq] at e
        subst e
        rfl
    have := head_dropWhile_false jsIsWS l c hcl
    simp [headNotWS, e, this]

theorem trim_lastNotWS (l : List Char) : lastNotWS (trimChars l) = true := by
  cases e : (trimChars l).getLast? with
  | none => simp [lastNotWS, e]
  | some c =>
    have h1 : ((l.dropWhile jsIsWS).reverse.dropWhile jsIsWS).head? = some c := by
      have := List.getLast?_reverse ((l.dropWhile jsIsWS).reverse.dropWhile jsIsWS)
      rw [← this]
      exact e
    have := head_dropWhile_false jsIsWS (l.dropWhile jsIsWS).reverse c h1
    simp [lastNotWS, e, this]

/-! ### Claim theorems -/

/-- C10: htmlToText returns the empty string on empty or absent input, and
otherwise a string with no leading or trailing whitespace and no run of
three or more consecutive newline characters. -/
theorem claim10_htmlToText_whitespace_postcondition :
    htmlToTextOpt none = "" ∧ htmlToText "" = "" ∧
    ∀ s : String, headNotWS (htmlToText s).data = true ∧
      lastNotWS (htmlToText s).data = true ∧
      hasTripleNL (htmlToText s).data = false := by
  refine ⟨rfl, rfl, fun s => ?_⟩
  by_cases hs : s = ""
  · subst hs
    exact ⟨rfl, rfl, rfl⟩
  · have hval : (htmlToText s).data
        = trimChars (collapseNLAux false (htmlSteps s.data)) := by
      rw [htmlToText, if_neg hs]
    rw [hval]
    exact ⟨trim_headNotWS (collapseNLAux false (htmlSteps s.data)),
      trim_lastNotWS (collapseNLAux false (htmlSteps s.data)),
      trim_no_triple (collapse_no_triple false (htmlSteps s.data))⟩

/-- C10 witness: the postcondition at a concrete input whose raw pipeline
output has surrounding blanks and a four-newline run. -/
theorem claim10_witness :
    headNotWS (htmlToText " a<br><br><br><br>b ").data = true ∧
    lastNotWS (htmlToText " a<br><br><br><br>b ").data = true ∧
    hasTripleNL (htmlToText " a<br><br><br><br>b ").data = false :=
  claim10_htmlToText_whitespace_postcondition.2.2 " a<br><br><br><br>b "

/-- C1: a second capture with identical serialized content produces no
change notification and reuses the previous snapshot (modelled from the
spec; server.js is not among the staged sources), and, in the client,
renderChat called with HTML converting to the same text as the last
rendered text leaves the chat display and lastChatText unchanged. -/
theorem claim1_unchanged_content_is_noop :
    (∀ (hashFn : String → Nat) (p : Snapshot) (serialized : String) (now : Nat),
      p.hash = hashFn p.content → serialized = p.content →
      captureStep hashFn (some p) serialized now = (p, false)) ∧
    ∀ (html : String) (st : TuiView),
      htmlToText html = st.lastChatText → renderChat html st = st := by
  constructor
  · intro hashFn p serialized now hh hs
    subst hs
    simp [captureStep, hh]
  · intro html st h
    simp [renderChat, h]

/-- C1 witness: concrete reuse of an unchanged snapshot and a concrete
no-op render. -/
theorem claim1_witness :
    captureStep (fun s => s.length) (some ⟨"abc", 3, 0⟩) "abc" 5 = (⟨"abc", 3, 0⟩, false) ∧
    renderChat "hi" ⟨"hi", "chat"⟩ = ⟨"hi", "chat"⟩ := by
  have h := claim1_unchanged_content_is_noop
  exact ⟨h.1 (fun s => s.length) ⟨"abc", 3, 0⟩ "abc" 5 rfl rfl,
    h.2 "hi" ⟨"hi", "chat"⟩ (by decide)⟩

/-- C2 fails as stated: two successive snapshot contents that differ in one
byte (a trailing space) convert to the same text, and the second render
leaves the display unchanged — client change detection is not pure byte
equality of the captured form. -/
theorem claim2_counterexample :
    "hi" ≠ "hi " ∧ htmlToText "hi" = htmlToText "hi " ∧
    renderChat "hi " (renderChat "hi" ⟨"", ""⟩) = renderChat "hi" ⟨"", ""⟩ :=
  ⟨by decide, by decide, by decide⟩

/-- C2 amended: the client detects a change exactly when the converted text
differs from the last rendered text — renderChat is the identity iff the
converted text is unchanged, and any converted-text difference updates both
the stored text and the displayed content; byte differences of the HTML
that convert to the same text produce no update. -/
theorem claim2_amended_render_detects_text_change :
    ∀ (html : String) (st : TuiView),
      (renderChat html st = st ↔ htmlToText html = st.lastChatText) ∧
      (htmlToText html ≠ st.lastChatText →
        (renderChat html st).lastChatText = htmlToText html ∧
        (renderChat html st).chatContent = colorize (htmlToText html)) := by
  intro html st
  by_cases h : htmlToText html = st.lastChatText
  · refine ⟨⟨fun _ => h, fun _ => by simp [renderChat, h]⟩, fun hne => absurd h hne⟩
  · refine ⟨⟨fun heq => ?_, fun heq => absurd heq h⟩,
      fun _ => ⟨by simp [renderChat, h], by simp [renderChat, h]⟩⟩
    exfalso
    apply h
    have hlast : (renderChat html st).lastChatText = htmlToText html := by
      simp [renderChat, h]
    rw [heq] at hlast
    exact hlast.symm

/-- C2 amended witness: a concrete changed render. -/
theorem claim2_amended_witness :
    (renderChat "yo" ⟨"", ""⟩).lastChatText = htmlToText "yo" ∧
    (renderChat "yo" ⟨"", ""⟩).chatContent = colorize (htmlToText "yo") :=
  (claim2_amended_render_detects_text_change "yo" ⟨"", ""⟩).2 (by decide)

/-- C3: for blank input the send path performs no protocol call — the
spec-modelled Action Executor send fails with EmptyInput and issues no
write, the client's sendMessage returns before any HTTP request, and the
submit handler never invokes sendMessage for a blank value. -/
theorem claim3_blank_send_no_protocol_call :
    ∀ text : String, jsTrim text = "" →
      sendMessageCall text = none ∧ submitCallsSend text = none ∧
      ∀ (d : RoleDescriptor) (es : List Element),
        sendOp d es text = (.failed .emptyInput, []) := by
  intro text h
  refine ⟨?_, ?_, fun d es => ?_⟩
  · simp [sendMessageCall, h]
  · simp [submitCallsSend, h]
  · simp [sendOp, h]

/-- C3 witness: whitespace-only input issues nothing anywhere. -/
theorem claim3_witness :
    sendMessageCall "   " = none ∧ submitCallsSend "   " = none ∧
    sendOp exSendDesc [] "   " = (.failed .emptyInput, []) := by
  have h := claim3_blank_send_no_protocol_call "   " (by decide)
  exact ⟨h.1, h.2.1, h.2.2 exSendDesc []⟩

/-- C4 fails as stated: the spec's push-event form is
`{type: "changed", scope}`, but the client's message handler re-queries
/snapshot only for type "snapshot_update", so an event of the claimed form
triggers no fetch; the second conjunct shows what the handler does react
to. -/
theorem claim4_counterexample :
    handleWsFrame (frameOfEvent (publishedEvent .snapshot)) = [] ∧
    handleWsFrame (.parsed (some "snapshot_update") none) = ["/snapshot"] :=
  ⟨by decide, by decide⟩

/-- C4 amended: push events modelled from the spec carry only a type and a
scope and no payload; the client's handler issues GET /snapshot exactly for
frames whose type field is "snapshot_update" (not the spec's "changed"),
its behaviour does not depend on any other content of the frame, and
unparseable frames are ignored. -/
theorem claim4_amended_push_is_requery_signal :
    (∀ sc : PushScope, (publishedEvent sc).type = "changed" ∧
      frameOfEvent (publishedEvent sc) = .parsed (some "changed") none) ∧
    (∀ t p q : Option String,
      handleWsFrame (.parsed t p) = handleWsFrame (.parsed t q)) ∧
    (∀ t p : Option String,
      handleWsFrame (.parsed t p) = ["/snapshot"] ↔ t = some "snapshot_update") ∧
    ∀ raw : String, handleWsFrame (.malformed raw) = [] := by
  refine ⟨fun sc => ⟨rfl, rfl⟩, fun t p q => rfl, fun t p => ?_, fun raw => rfl⟩
  by_cases h : t = some "snapshot_update"
  · simp [handleWsFrame, h]
  · simp [handleWsFrame, h]

/-- C4 amended witness: a frame of the recognised type triggers the
re-query even though it carries extra content the handler never reads. -/
theorem claim4_amended_witness :
    handleWsFrame (.parsed (some "snapshot_update") (some "<div>new</div>")) =
      ["/snapshot"] :=
  (claim4_amended_push_is_requery_signal.2.2.1 (some "snapshot_update")
    (some "<div>new</div>")).mpr rfl

theorem keepBest_foldl_spec (d : RoleDescriptor) :
    ∀ (l : List Element) (b : Element),
      ∃ r, l.foldl (keepBest d) (some b) = some r ∧ (r = b ∨ r ∈ l) ∧
        score d b ≤ score d r ∧ ∀ x ∈ l, score d x ≤ score d r := by
  intro l
  induction l with
  | nil =>
    intro b
    exact ⟨b, rfl, Or.inl rfl, le_refl _, by simp⟩
  | cons a t ih =>
    intro b
    by_cases h : score d b < score d a
    · have hstep : (a :: t).foldl (keepBest d) (some b)
          = t.foldl (keepBest d) (some a) := by
        simp [List.foldl_cons, keepBest, h]
      obtain ⟨r, hr, hmem, hge, hall⟩ := ih a
      refine ⟨r, by rw [hstep]; exact hr, ?_, le_of_lt (lt_of_lt_of_le h hge), ?_⟩
      · cases hmem with
        | inl e => exact Or.inr (by rw [e]; exact List.mem_cons_self a t)
        | inr m => exact Or.inr (List.mem_cons_of_mem a m)
      · intro x hx
        cases List.mem_cons.mp hx with
        | inl e => rw [e]; exact hge
        | inr m => exact hall x m
    · have hstep : (a :: t).foldl (keepBest d) (some b)
          = t.foldl (keepBest d) (some b) := by
        simp [List.foldl_cons, keepBest, h]
      obtain ⟨r, hr, hmem, hge, hall⟩ := ih b
      refine ⟨r, by rw [hstep]; exact hr, ?_, hge, ?_⟩
      · cases hmem with
        | inl e => exact Or.inl e
        | inr m => exact Or.inr (List.mem_cons_of_mem a m)
      · intro x hx
        cases List.mem_cons.mp hx with
        | inl e => rw [e]; exact le_trans (le_of_not_lt h) hge
        | inr m => exact hall x m

theorem qualifies_iff (d : RoleDescriptor) (e : Element) :
    qualifies d e = true ↔ disqualified d e = false ∧ d.minScore ≤ score d e := by
  simp [qualifies]

theorem resolve_spec (d : RoleDescriptor) (es : List Element) :
    (∀ e, resolve d es = some e →
      e ∈ es ∧ disqualified d e = false ∧ d.minScore ≤ score d e ∧
      ∀ x ∈ es, disqualified d x = false → d.minScore ≤ score d x →
        score d x ≤ score d e) ∧
    ((∃ x ∈ es, qualifies d x = true) → resolve d es ≠ none) := by
  constructor
  · intro e he
    cases hf : es.filter (qualifies d) with
    | nil => rw [resolve, hf] at he; cases he
    | cons a t =>
      rw [resolve, hf] at he
      have hfold : (a :: t).foldl (keepBest d) none
          = t.foldl (keepBest d) (some a) := rfl
      rw [hfold] at he
      obtain ⟨r, hr, hmem, hge, hall⟩ := keepBest_foldl_spec d t a
      rw [hr] at he
      injection he with he'
      have he2 : e = r := he'.symm
      subst he2
      have hrf : e ∈ es.filter (qualifies d) := by
        rw [hf]
        cases hmem with
        | inl h => rw [h]; exact List.mem_cons_self a t
        | inr h => exact List.mem_cons_of_mem a h
      have hq : qualifies d e = true := List.of_mem_filter hrf
      have hmes : e ∈ es := List.mem_of_mem_filter hrf
      obtain ⟨hdq, hms⟩ := (qualifies_iff d e).mp hq
      refine ⟨hmes, hdq, hms, ?_⟩
      intro x hx hxd hxs
      have hxf : x ∈ es.filter (qualifies d) :=
        List.mem_filter.mpr ⟨hx, (qualifies_iff d x).mpr ⟨hxd, hxs⟩⟩
      rw [hf] at hxf
      cases List.mem_cons.mp hxf with
      | inl h => rw [h]; exact hge
      | inr h => exact hall x h
  · rintro ⟨x, hx, hq⟩ hnone
    have hxf : x ∈ es.filter (qualifies d) := List.mem_filter.mpr ⟨hx, hq⟩
    cases hf : es.filter (qualifies d) with
    | nil => rw [hf] at hxf; cases hxf
    | cons a t =>
      rw [resolve, hf] at hnone
      have hfold : (a :: t).foldl (keepBest d) none
          = t.foldl (keepBest d) (some a) := rfl
      rw [hfold] at hnone
      obtain ⟨r, hr, _, _, _⟩ := keepBest_foldl_spec d t a
      rw [hr] at hnone
      cases hnone

/-- C5: an element matching at least one forbidden signal is never returned
by resolve regardless of its score, and a returned candidate is a
non-disqualified element at or above the minimum score whose score is
maximal among the non-disqualified elements above the threshold; when such
an element exists one is returned (modelled from the spec; server.js is not
among the staged sources). -/
theorem claim5_resolve_forbidden_never_returned :
    ∀ (d : RoleDescriptor) (es : List Element),
      (∀ e ∈ es, disqualified d e = true → resolve d es ≠ some e) ∧
      (∀ e, resolve d es = some e →
        e ∈ es ∧ disqualified d e = false ∧ d.minScore ≤ score d e ∧
        ∀ x ∈ es, disqualified d x = false → d.minScore ≤ score d x →
          score d x ≤ score d e) ∧
      ((∃ x ∈ es, qualifies d x = true) → resolve d es ≠ none) := by
  intro d es
  refine ⟨?_, (resolve_spec d es).1, (resolve_spec d es).2⟩
  intro e _ hdq hres
  obtain ⟨_, hfalse, _, _⟩ := (resolve_spec d es).1 e hres
  rw [hdq] at hfalse
  cases hfalse

/-- C5 witness: a disqualified high scorer is never returned; the clean
candidate is. -/
theorem claim5_witness :
    resolve exSendDesc [exStopButton, exSendButton] ≠ some exStopButton ∧
    resolve exSendDesc [exStopButton, exSendButton] = some exSendButton := by
  have h := claim5_resolve_forbidden_never_returned exSendDesc
    [exStopButton, exSendButton]
  exact ⟨h.1 exStopButton (by decide) (by decide), by decide⟩

/-- C6: when element resolution fails with NotFound, the send operation
returns Failed(NotFound) and issues zero protocol writes (modelled from the
spec; server.js is not among the staged sources). -/
theorem claim6_send_notfound_fails_fast :
    ∀ (d : RoleDescriptor) (es : List Element) (text : String),
      jsTrim text ≠ "" → resolve d es = none →
      sendOp d es text = (.failed .notFound, []) := by
  intro d es text ht hr
  simp [sendOp, ht, hr]

/-- C6 witness: end-to-end scenario B — send("hello") with no resolvable
send button returns Failed(NotFound) with zero protocol writes. -/
theorem claim6_witness :
    sendOp exSendDesc [exStopButton] "hello" = (.failed .notFound, []) :=
  claim6_send_notfound_fails_fast exSendDesc [exStopButton] "hello"
    (by decide) (by decide)

theorem locate_probe_spec (env : Nat → Option (List Target)) (f : TargetFilter) :
    ∀ ports : List Nat,
      (locate env f ports = none ↔
        ∀ p ∈ ports, answersMatching env f p = false) ∧
      (∀ p t, locate env f ports = some (p, t) →
        ports.find? (answersMatching env f) = some p ∧
        ∃ ts, env p = some ts ∧ ts.find? (matchesFilter f) = some t) := by
  intro ports
  induction ports with
  | nil =>
    constructor
    · simp [locate]
    · intro p t h; cases h
  | cons p ps ih =>
    cases henv : env p with
    | none =>
      have ham : answersMatching env f p = false := by
        simp [answersMatching, henv]
      have hloc : locate env f (p :: ps) = locate env f ps := by
        simp [locate, henv]
      constructor
      · rw [hloc, ih.1]
        constructor
        · intro h q hq
          cases List.mem_cons.mp hq with
          | inl e => rw [e]; exact ham
          | inr m => exact h q m
        · intro h q hq
          exact h q (List.mem_cons_of_mem p hq)
      · intro q t h
        rw [hloc] at h
        obtain ⟨hfind, hrest⟩ := ih.2 q t h
        refine ⟨?_, hrest⟩
        rw [List.find?_cons_of_neg _ (by simp [ham])]
        exact hfind
    | some ts =>
      cases hfind : ts.find? (matchesFilter f) with
      | some t =>
        have ham : answersMatching env f p = true := by
          have hmem := List.mem_of_find?_eq_some hfind
          have hp := List.find?_some hfind
          simp only [answersMatching, henv]
          exact List.any_eq_true.mpr ⟨t, hmem, hp⟩
        have hloc : locate env f (p :: ps) = some (p, t) := by
          simp [locate, henv, hfind]
        constructor
        · rw [hloc]
          constructor
          · intro h; cases h
          · intro h
            have hcontra := h p (List.mem_cons_self p ps)
            rw [ham] at hcontra
            cases hcontra
        · intro q t' h
          rw [hloc] at h
          injection h with h'
          rw [Prod.mk.injEq] at h'
          obtain ⟨rfl, rfl⟩ := h'
          exact ⟨List.find?_cons_of_pos _ ham, ⟨ts, henv, hfind⟩⟩
      | none =>
        have ham : answersMatching env f p = false := by
          have hall := List.find?_eq_none.mp hfind
          simp only [answersMatching, henv]
          simp only [List.any_eq_false]
          intro x hx
          exact hall x hx
        have hloc : locate env f (p :: ps) = locate env f ps := by
          simp [locate, henv, hfind]
        constructor
        · rw [hloc, ih.1]
          constructor
          · intro h q hq
            cases List.mem_cons.mp hq with
            | inl e => rw [e]; exact ham
            | inr m => exact h q m
          · intro h q hq
            exact h q (List.mem_cons_of_mem p hq)
        · intro q t' h
          rw [hloc] at h
          obtain ⟨hfind2, hrest⟩ := ih.2 q t' h
          refine ⟨?_, hrest⟩
          rw [List.find?_cons_of_neg _ (by simp [ham])]
          exact hfind2

/-- C7: locate selects the first endpoint in probe order that answers with
a well-formed target list containing a target matching the title/type
filter, and returns NoTargetFound exactly when every candidate is
unreachable or no target matches; probing [9000,9001,9002,9003] where only
9002 answers with a matching target selects 9002 (modelled from the spec;
server.js is not among the staged sources). -/
theorem claim7_locate_first_matching_port :
    (∀ (env : Nat → Option (List Target)) (f : TargetFilter) (ports : List Nat),
      (locate env f ports = none ↔
        ∀ p ∈ ports, answersMatching env f p = false) ∧
      (∀ p t, locate env f ports = some (p, t) →
        ports.find? (answersMatching env f) = some p ∧
        ∃ ts, env p = some ts ∧ ts.find? (matchesFilter f) = some t)) ∧
    locate exEnv exFilter [9000, 9001, 9002, 9003] = some (9002, exTarget) :=
  ⟨fun env f ports => locate_probe_spec env f ports, by decide⟩

/-- C7 witness: in the concrete scenario, 9002 is the first port in probe
order that answers with a matching target, and the selected target is the
first matching one in its list. -/
theorem claim7_witness :
    [9000, 9001, 9002, 9003].find? (answersMatching exEnv exFilter) = some 9002 ∧
    ∃ ts, exEnv 9002 = some ts ∧
      ts.find? (matchesFilter exFilter) = some exTarget := by
  have h := claim7_locate_first_matching_port
  exact (h.1 exEnv exFilter [9000, 9001, 9002, 9003]).2 9002 exTarget h.2

/-- C8: the client's mode switch is a toggle, not an ensure-state
operation — when currentMode is "Fast" it posts "Planning", and for every
other current value (including "Planning" and "Unknown") it posts
"Fast". -/
theorem claim8_switchMode_is_toggle :
    switchModeTarget "Fast" = "Planning" ∧
    (∀ m : String, m ≠ "Fast" → switchModeTarget m = "Fast") ∧
    ∀ m : String,
      switchModeCall m = { path := "/set-mode", message := switchModeTarget m } := by
  refine ⟨rfl, fun m h => ?_, fun m => rfl⟩
  simp [switchModeTarget, h]

/-- C8 witness: the toggle at the three named modes. -/
theorem claim8_witness :
    switchModeTarget "Fast" = "Planning" ∧ switchModeTarget "Planning" = "Fast" ∧
    switchModeTarget "Unknown" = "Fast" := by
  have h := claim8_switchMode_is_toggle
  exact ⟨h.1, h.2.1 "Planning" (by decide), h.2.1 "Unknown" (by decide)⟩

theorem applyStateField_cases (v : Option String) (old : String) :
    applyStateField v old = old ∨
      ∃ s, v = some s ∧ s ≠ "" ∧ s ≠ "Unknown" ∧ applyStateField v old = s := by
  cases v with
  | none => exact Or.inl rfl
  | some s =>
    by_cases h : s ≠ "" ∧ s ≠ "Unknown"
    · exact Or.inr ⟨s, rfl, h.1, h.2, by simp [applyStateField, h]⟩
    · left
      simp [applyStateField, h]

theorem applyStateField_ne (v : Option String) (old bad : String)
    (hold : old ≠ bad) (hbad : bad = "" ∨ bad = "Unknown") :
    applyStateField v old ≠ bad := by
  rcases applyStateField_cases v old with h | ⟨s, _, hs1, hs2, h⟩
  · rw [h]; exact hold
  · rw [h]
    cases hbad with
    | inl e => rw [e]; exact hs1
    | inr e => rw [e]; exact hs2

/-- C9: once currentMode or currentModel holds a value other than
"Unknown", refreshState never resets it to "Unknown" or clears it; a field
is overwritten only when the fetched state provides a present value that is
neither empty nor "Unknown", and a failed or empty /app-state read leaves
both fields unchanged. -/
theorem claim9_refreshState_preserves_known :
    ∀ (resp : Option AppStateResp) (st : ModeModel),
      (st.currentMode ≠ "Unknown" →
        (refreshState resp st).currentMode ≠ "Unknown") ∧
      (st.currentModel ≠ "Unknown" →
        (refreshState resp st).currentModel ≠ "Unknown") ∧
      (st.currentMode ≠ "" → (refreshState resp st).currentMode ≠ "") ∧
      (st.currentModel ≠ "" → (refreshState resp st).currentModel ≠ "") ∧
      refreshState none st = st ∧
      refreshState (some ⟨none, none⟩) st = st ∧
      ∀ r, resp = some r →
        ((refreshState resp st).currentMode = st.currentMode ∨
          ∃ s, r.mode = some s ∧ s ≠ "" ∧ s ≠ "Unknown" ∧
            (refreshState resp st).currentMode = s) ∧
        ((refreshState resp st).currentModel = st.currentModel ∨
          ∃ s, r.model = some s ∧ s ≠ "" ∧ s ≠ "Unknown" ∧
            (refreshState resp st).currentModel = s) := by
  intro resp st
  cases resp with
  | none =>
    refine ⟨fun h => h, fun h => h, fun h => h, fun h => h, rfl, rfl, ?_⟩
    intro r hr; cases hr
  | some r =>
    refine ⟨fun h => applyStateField_ne r.mode st.currentMode "Unknown" h (Or.inr rfl),
      fun h => applyStateField_ne r.model st.currentModel "Unknown" h (Or.inr rfl),
      fun h => applyStateField_ne r.mode st.currentMode "" h (Or.inl rfl),
      fun h => applyStateField_ne r.model st.currentModel "" h (Or.inl rfl),
      rfl, rfl, ?_⟩
    intro r' hr
    injection hr with hr'
    subst hr'
    exact ⟨applyStateField_cases r.mode st.currentMode,
      applyStateField_cases r.model st.currentModel⟩

/-- C9 witness: a fetched state carrying an empty mode and an "Unknown"
model overwrites neither field, and a failed read changes nothing. -/
theorem claim9_witness :
    (refreshState (some ⟨some "", some "Unknown"⟩)
      ⟨"Fast", "Claude"⟩).currentMode ≠ "Unknown" ∧
    (refreshState (some ⟨some "", some "Unknown"⟩)
      ⟨"Fast", "Claude"⟩).currentModel ≠ "Unknown" ∧
    refreshState none ⟨"Fast", "Claude"⟩ = ⟨"Fast", "Claude"⟩ := by
  have h := claim9_refreshState_preserves_known
    (some ⟨some "", some "Unknown"⟩) ⟨"Fast", "Claude"⟩
  have h0 := claim9_refreshState_preserves_known none ⟨"Fast", "Claude"⟩
  exact ⟨h.1 (by decide), h.2.1 (by decide), h0.2.2.2.2.1⟩

end AgPhone
